import Mathlib

/-!
Verification of the two developer scripts of the `anagram-game` repository:
`code_map_generator.py` (a regex-driven Swift API-surface extractor) and
`update_network_config.py` (a text-substitution config patcher).

Text is modelled as `List Char` (`Str`).  Python's fixed regular expressions
are hand-compiled into deterministic parsers: for every pattern appearing in
the source, the alternations are first-character disjoint and the greedy
character classes are delimited by characters excluded from the class, so the
backtracking engine's behaviour coincides with the straight-line parsers
below (noted per parser).  `\w` and `\s` are modelled at their ASCII meaning.
Recursive scanners take an explicit fuel argument equal to the input length;
every step consumes at least one element, so the fuel never runs out and the
functions stay kernel-computable.
-/

set_option maxRecDepth 100000

abbrev Str := List Char

/-- Shorthand for the character list of a string literal. -/
def s2l (s : String) : Str := s.data

/-- Python `str.isspace` / regex `\s`, at its ASCII meaning. -/
def isPySpace (c : Char) : Bool :=
  c = ' ' || c = '\t' || c = '\n' || c = '\r' || c = '\x0b' || c = '\x0c'

/-- Regex `\w`, at its ASCII meaning. -/
def isWordChar (c : Char) : Bool := c.isAlphanum || c = '_'

/-- Python `str.strip()`, left half. -/
def stripLeft (cs : Str) : Str := cs.dropWhile isPySpace

/-- Python `str.strip()`, right half. -/
def stripRight (cs : Str) : Str := ((cs.reverse).dropWhile isPySpace).reverse

/-- Python `str.strip()`. -/
def pyStrip (cs : Str) : Str := stripRight (stripLeft cs)

/-- Python `content.split('\n')`. -/
def splitNL : Str → List Str
  | [] => [[]]
  | c :: rest =>
    match splitNL rest with
    | [] => [[c]]
    | h :: t => if c = '\n' then [] :: h :: t else (c :: h) :: t

/-- Python `'\n'.join(lines)`. -/
def joinNL : List Str → Str
  | [] => []
  | [l] => l
  | l :: rest => l ++ '\n' :: joinNL rest

/-- `stripped.count('{') - stripped.count('}')` as used by the brace-depth scans. -/
def braceDelta (cs : Str) : Int := (cs.count '{' : Int) - (cs.count '}' : Int)

/-- Match a literal pattern at the front; on success return the rest. -/
def tryPre : Str → Str → Option Str
  | [], cs => some cs
  | _ :: _, [] => none
  | a :: as, b :: bs => if a = b then tryPre as bs else none

/-- Python `s.startswith(p)`. -/
def startsWithL (p cs : Str) : Bool := (tryPre p cs).isSome

/-- One-or-more characters satisfying `p` (regex `X+` for a character class). -/
def takeWhile1 (p : Char → Bool) (cs : Str) : Option (Str × Str) :=
  match cs.takeWhile p with
  | [] => none
  | t => some (t, cs.dropWhile p)

/-- Regex `\(([^)]*)\)`: a parenthesised argument list (used inside `@attr(...)`).
Fails when the closing parenthesis is missing, exactly as the regex group does. -/
def parseParen (cs : Str) : Option (Str × Str) :=
  match cs with
  | [] => none
  | c :: r =>
    if c = '(' then
      match r.dropWhile (fun x => !(x = ')')) with
      | [] => none
      | _ :: r2 => some ('(' :: (r.takeWhile (fun x => !(x = ')'))) ++ [')'], r2)
    else none

/-- One iteration of `(?:@\w+(?:\([^)]*\))?\s+)`: an attribute token followed by
mandatory whitespace.  When the optional parenthesis group is present but
unclosed the regex drops it and then fails on `\s+` at the `(`; returning
`none` here reproduces that. -/
def parseOneAttr (cs : Str) : Option (Str × Str) :=
  match cs with
  | [] => none
  | c :: r1 =>
    if c = '@' then
      match takeWhile1 isWordChar r1 with
      | none => none
      | some (w, r2) =>
        let pr := match parseParen r2 with
          | some (p, r) => (p, r)
          | none => (([] : Str), r2)
        match takeWhile1 isPySpace pr.2 with
        | none => none
        | some (sp, r4) => some ('@' :: w ++ pr.1 ++ sp, r4)
    else none

/-- Regex `((?:@\w+(?:\([^)]*\))?\s+)*)`: the annotation prefix, capturing the
whole matched span.  Nothing after this group can start with `@`, so the
greedy star never backtracks.  Fuel: every iteration consumes at least one
character. -/
def parseAttrsAux : Nat → Str → Str × Str
  | 0, cs => ([], cs)
  | f + 1, cs =>
    match parseOneAttr cs with
    | none => ([], cs)
    | some (cap, rest) =>
      let r2 := parseAttrsAux f rest
      (cap ++ r2.1, r2.2)

def parseAttrs (cs : Str) : Str × Str := parseAttrsAux cs.length cs

/-- One alternative of the shape `keyword\s+` (e.g. `public\s+`), capturing the
keyword together with the greedily matched whitespace. -/
def parseKwSp (kw : Str) (cs : Str) : Option (Str × Str) :=
  match tryPre kw cs with
  | none => none
  | some r =>
    match takeWhile1 isPySpace r with
    | none => none
    | some (sp, r2) => some (kw ++ sp, r2)

/-- First alternative of `(kw1\s+|kw2\s+|...)` that matches.  The keyword lists
used in the source are pairwise prefix-free, so trying them in order matches
the regex alternation. -/
def parseFirst (alts : List Str) (cs : Str) : Option (Str × Str) :=
  match alts with
  | [] => none
  | a :: rest =>
    match parseKwSp a cs with
    | some x => some x
    | none => parseFirst rest cs

/-- An optional modifier group `(kw1\s+|...)?`; Python turns an unmatched group
into `""` via `or ""`. -/
def parseOpt (alts : List Str) (cs : Str) : Str × Str :=
  match parseFirst alts cs with
  | some (cap, r) => (cap, r)
  | none => ([], cs)

/-- A starred modifier group `(kw1\s+|...)*`.  Python's `re` keeps only the
text of the LAST iteration for a repeated capturing group; the first component
reproduces that quirk. -/
def parseStarLastAux : Nat → List Str → Str → Str × Str
  | 0, _, cs => ([], cs)
  | f + 1, alts, cs =>
    match parseFirst alts cs with
    | none => ([], cs)
    | some (cap, r) =>
      let deeper := parseStarLastAux f alts r
      (if deeper.1.isEmpty then cap else deeper.1, deeper.2)

def parseStarLast (alts : List Str) (cs : Str) : Str × Str :=
  parseStarLastAux cs.length alts cs

/-- First literal alternative of `(kw1|kw2|...)` that matches (no trailing
whitespace inside the group). -/
def parseAlt (alts : List Str) (cs : Str) : Option (Str × Str) :=
  match alts with
  | [] => none
  | a :: rest =>
    match tryPre a cs with
    | some r => some (a, r)
    | none => parseAlt rest cs

/-- The tail pattern `(\s*:\s*[^{]+)?\s*\{` shared by the protocol, type and
extension headers: returns the captured inheritance/conformance group (`[]`
when absent) when the whole tail matches.  `[^{]+` greedily runs to the first
`{`, and when the text between `:` and `{` is empty the optional group — and
with it the whole header — fails, as the regex does. -/
def parseInheritBrace (cs : Str) : Option Str :=
  let ws := cs.takeWhile isPySpace
  match cs.dropWhile isPySpace with
  | [] => none
  | c :: r2 =>
    if c = ':' then
      match r2.takeWhile (fun x => !(x = '{')) with
      | [] => none
      | body =>
        match r2.dropWhile (fun x => !(x = '{')) with
        | [] => none
        | _ :: _ => some (ws ++ ':' :: body)
    else if c = '{' then some []
    else none

/-- Regex `(<[^>]+>)?`: optional generic parameter clause.  When absent or
malformed the group contributes nothing and parsing continues where it began. -/
def parseGenericsOpt (cs : Str) : Str × Str :=
  match cs with
  | [] => ([], cs)
  | c :: r =>
    if c = '<' then
      match r.takeWhile (fun x => !(x = '>')) with
      | [] => ([], cs)
      | body =>
        match r.dropWhile (fun x => !(x = '>')) with
        | [] => ([], cs)
        | _ :: r2 => ('<' :: body ++ ['>'], r2)
    else ([], cs)

/-- `X.strip().startswith('private') or X.strip().startswith('fileprivate')`:
the member-visibility filter used by every scanner that has one. -/
def accessPrivate (a : Str) : Bool :=
  startsWithL (s2l "private") (pyStrip a) || startsWithL (s2l "fileprivate") (pyStrip a)

def accessList4 : List Str :=
  [s2l "public", s2l "private", s2l "internal", s2l "fileprivate"]

def accessList5 : List Str := accessList4 ++ [s2l "open"]

/-! ## `code_map_generator.py`: the five scanners -/

/-- One match of `^import\s+.*$` under `re.MULTILINE`: the `import` keyword at
a line start, mandatory whitespace (which, as in the regex, may greedily cross
newlines), then the remainder of the line.  Returns the matched text and the
rest of the input. -/
def importMatch (cs : Str) : Option (Str × Str) :=
  match tryPre (s2l "import") cs with
  | none => none
  | some r =>
    match takeWhile1 isPySpace r with
    | none => none
    | some (sp, r2) =>
      some (s2l "import" ++ sp ++ r2.takeWhile (fun c => !(c = '\n')),
            r2.dropWhile (fun c => !(c = '\n')))

/-- `re.findall(r'^import\s+.*$', content, re.MULTILINE)`: scan the text,
attempting the pattern at the start and after each newline; after a match the
scan resumes at the match end. -/
def extractImportsAux : Nat → Bool → Str → List Str
  | 0, _, _ => []
  | _, _, [] => []
  | f + 1, atStart, c :: rest =>
    if atStart then
      match importMatch (c :: rest) with
      | some (m, r2) => m :: extractImportsAux f false r2
      | none => extractImportsAux f (c = '\n') rest
    else extractImportsAux f (c = '\n') rest

def extract_imports (content : Str) : List Str :=
  extractImportsAux content.length true content

/-- The groups of the protocol header regex (src line 27). -/
structure ProtoHeader where
  attrs : Str
  access : Str
  name : Str
  inherit : Str
  deriving DecidableEq

/-- The protocol header regex (src line 27), applied to the stripped line.
The captured annotation group is stored already stripped (src line 31). -/
def protoHeaderParse (line : Str) : Option ProtoHeader :=
  let r0 := line.dropWhile isPySpace
  let a := parseAttrs r0
  let ac := parseOpt accessList4 a.2
  match tryPre (s2l "protocol") ac.2 with
  | none => none
  | some r3 =>
    match takeWhile1 isPySpace r3 with
    | none => none
    | some (_, r4) =>
      match takeWhile1 isWordChar r4 with
      | none => none
      | some (nm, r5) =>
        match parseInheritBrace r5 with
        | none => none
        | some inh => some ⟨pyStrip a.1, ac.1, nm, inh⟩

/-- The header lines a recognised protocol contributes (src lines 36–39). -/
def protoHeaderLines (h : ProtoHeader) : List Str :=
  (if h.attrs.isEmpty then [] else [h.attrs]) ++
  [h.access ++ s2l "protocol " ++ h.name ++ h.inherit ++ s2l " \x7b"]

/-- Protocol method requirement regex (src line 53). -/
structure ProtoFuncM where
  attrs : Str
  statics : Str
  sig : Str
  deriving DecidableEq

def protoFuncMatch (s : Str) : Option ProtoFuncM :=
  let a := parseAttrs (s.dropWhile isPySpace)
  let st := parseOpt [s2l "static", s2l "class"] a.2
  match tryPre (s2l "func") st.2 with
  | none => none
  | some r =>
    match takeWhile1 isPySpace r with
    | none => none
    | some (_, r2) =>
      match r2.takeWhile (fun c => !(c = '{')) with
      | [] => none
      | sig => some ⟨pyStrip a.1, st.1, pyStrip sig⟩

/-- Protocol property requirement regex (src line 64). -/
structure ProtoVarM where
  kind : Str
  name : Str
  decl : Str
  deriving DecidableEq

def protoVarMatch (s : Str) : Option ProtoVarM :=
  let r0 := s.dropWhile isPySpace
  match parseAlt [s2l "var", s2l "let"] r0 with
  | none => none
  | some (k, r1) =>
    match takeWhile1 isPySpace r1 with
    | none => none
    | some (_, r2) =>
      match takeWhile1 isWordChar r2 with
      | none => none
      | some (nm, r3) =>
        match r3.dropWhile isPySpace with
        | [] => none
        | c :: r4 =>
          if c = ':' then
            match r4.takeWhile (fun x => !(x = '{')) with
            | [] => none
            | d => some ⟨k, nm, pyStrip d⟩
          else none

/-- Member lines contributed by one directly nested protocol line
(src lines 52–69): a method match, then a property match, each appended
independently. -/
def protoMemberLines (s : Str) : List Str :=
  (match protoFuncMatch s with
   | some m =>
     (if m.attrs.isEmpty then [] else [s2l "    " ++ m.attrs]) ++
     [s2l "    " ++ m.statics ++ s2l "func " ++ m.sig]
   | none => []) ++
  (match protoVarMatch s with
   | some m => [s2l "    " ++ m.kind ++ ' ' :: m.name ++ s2l ": " ++ m.decl]
   | none => [])

/-- The nested brace-depth scan shared by the protocol/type/extension
extractors (e.g. src lines 45–71): the count is updated with each stripped
line's delta BEFORE the `brace_count == 1` test, members are collected from
qualifying lines, and the loop stops once the count is no longer positive.
Returns the member lines and the unconsumed lines. -/
def scanBody (member : Str → List Str) : Int → List Str → List Str × List Str
  | _, [] => ([], [])
  | bc, l :: rest =>
    if bc ≤ 0 then ([], l :: rest)
    else
      let s := pyStrip l
      let bc2 := bc + braceDelta s
      let emitted :=
        if bc2 = 1 && !s.isEmpty && !startsWithL (s2l "//") s then member s else []
      let r2 := scanBody member bc2 rest
      (emitted ++ r2.1, r2.2)

/-- `extract_protocols` (src lines 17–79); fuel: each step consumes at least
the header line. -/
def extractProtocolsAux : Nat → List Str → List Str
  | 0, _ => []
  | _, [] => []
  | f + 1, l :: rest =>
    match protoHeaderParse (pyStrip l) with
    | some h =>
      let sc := scanBody protoMemberLines 1 rest
      joinNL (protoHeaderLines h ++ sc.1 ++ [s2l "\x7d"]) :: extractProtocolsAux f sc.2
    | none => extractProtocolsAux f rest

def extract_protocols (content : Str) : List Str :=
  let ls := splitNL content
  extractProtocolsAux ls.length ls

/-- The groups of the type header regex (src line 91). -/
structure TypeHeader where
  attrs : Str
  access : Str
  finalMod : Str
  keyword : Str
  name : Str
  generics : Str
  inherit : Str
  deriving DecidableEq

def typeKeywords : List Str := [s2l "class", s2l "struct", s2l "enum"]

/-- The type header regex (src line 91), applied to the stripped line. -/
def typeHeaderParse (line : Str) : Option TypeHeader :=
  let r0 := line.dropWhile isPySpace
  let a := parseAttrs r0
  let ac := parseOpt accessList5 a.2
  let fin := parseOpt [s2l "final"] ac.2
  match parseAlt typeKeywords fin.2 with
  | none => none
  | some (kw, r4) =>
    match takeWhile1 isPySpace r4 with
    | none => none
    | some (_, r5) =>
      match takeWhile1 isWordChar r5 with
      | none => none
      | some (nm, r6) =>
        let g := parseGenericsOpt r6
        match parseInheritBrace g.2 with
        | none => none
        | some inh => some ⟨pyStrip a.1, ac.1, fin.1, kw, nm, g.1, inh⟩

/-- The header lines of a recognised type declaration (src lines 103–113). -/
def typeHeaderLines (h : TypeHeader) : List Str :=
  (if h.attrs.isEmpty then [] else [h.attrs]) ++
  [h.access ++ h.finalMod ++ h.keyword ++ ' ' :: h.name ++ h.generics ++ h.inherit ++ s2l " \x7b"]

/-- The stored-property regex groups (src line 127). -/
structure PropM where
  attrs : Str
  access : Str
  statics : Str
  weakMod : Str
  kind : Str
  name : Str
  ty : Str
  deriving DecidableEq

/-- Stored-property regex (src line 127).  The captured type runs to the
first `=`, `{` or newline; it is emitted stripped (src line 135), so the
interplay of `\s*` with the greedy class is immaterial and the capture is
stored stripped. -/
def propMatchT (s : Str) : Option PropM :=
  let a := parseAttrs (s.dropWhile isPySpace)
  let ac := parseOpt accessList5 a.2
  let st := parseOpt [s2l "static", s2l "class"] ac.2
  let wk := parseOpt [s2l "weak", s2l "unowned"] st.2
  match parseAlt [s2l "var", s2l "let"] wk.2 with
  | none => none
  | some (k, r1) =>
    match takeWhile1 isPySpace r1 with
    | none => none
    | some (_, r2) =>
      match takeWhile1 isWordChar r2 with
      | none => none
      | some (nm, r3) =>
        match r3.dropWhile isPySpace with
        | [] => none
        | c :: r4 =>
          if c = ':' then
            match r4.takeWhile (fun x => !(x = '=' || x = '{' || x = '\n')) with
            | [] => none
            | ty => some ⟨pyStrip a.1, ac.1, st.1, wk.1, k, nm, pyStrip ty⟩
          else none

/-- Stored-property emission with its visibility filter (src lines 137–145). -/
def emitProp (m : PropM) : List Str :=
  if accessPrivate m.access then []
  else
    (if m.attrs.isEmpty then [] else [s2l "    " ++ m.attrs]) ++
    [s2l "    " ++ m.access ++ m.statics ++ m.weakMod ++ m.kind ++ ' ' :: m.name ++ s2l ": " ++ m.ty]

/-- The computed-property regex groups (src line 148). -/
structure CompM where
  attrs : Str
  access : Str
  statics : Str
  name : Str
  ty : Str
  deriving DecidableEq

/-- Computed-property regex (src line 148): like the stored form but with
keyword `var` only and a mandatory `{` after the type. -/
def compMatchT (s : Str) : Option CompM :=
  let a := parseAttrs (s.dropWhile isPySpace)
  let ac := parseOpt accessList5 a.2
  let st := parseOpt [s2l "static", s2l "class"] ac.2
  match tryPre (s2l "var") st.2 with
  | none => none
  | some r1 =>
    match takeWhile1 isPySpace r1 with
    | none => none
    | some (_, r2) =>
      match takeWhile1 isWordChar r2 with
      | none => none
      | some (nm, r3) =>
        match r3.dropWhile isPySpace with
        | [] => none
        | c :: r4 =>
          if c = ':' then
            match r4.takeWhile (fun x => !(x = '{')) with
            | [] => none
            | ty =>
              match r4.dropWhile (fun x => !(x = '{')) with
              | [] => none
              | _ :: _ => some ⟨pyStrip a.1, ac.1, st.1, nm, pyStrip ty⟩
          else none

/-- Computed-property emission with the synthetic `{ get }` suffix
(src lines 156–163). -/
def emitComp (m : CompM) : List Str :=
  if accessPrivate m.access then []
  else
    (if m.attrs.isEmpty then [] else [s2l "    " ++ m.attrs]) ++
    [s2l "    " ++ m.access ++ m.statics ++ s2l "var " ++ m.name ++ s2l ": " ++ m.ty
       ++ s2l " \x7b get \x7d"]

/-- The method regex groups (src line 166). -/
structure FuncM where
  attrs : Str
  access : Str
  mods : Str
  keyword : Str
  sig : Str
  deriving DecidableEq

/-- Method/initializer/deinitializer regex (src line 166).  NOTE the pattern
`(func|init|deinit)\s+([^{]+)` requires whitespace right after the keyword and
at least one non-`{` character after it. -/
def funcMatchT (s : Str) : Option FuncM :=
  let a := parseAttrs (s.dropWhile isPySpace)
  let ac := parseOpt accessList5 a.2
  let md := parseStarLast [s2l "static", s2l "class", s2l "override"] ac.2
  match parseAlt [s2l "func", s2l "init", s2l "deinit"] md.2 with
  | none => none
  | some (kw, r1) =>
    match takeWhile1 isPySpace r1 with
    | none => none
    | some (_, r2) =>
      match r2.takeWhile (fun c => !(c = '{')) with
      | [] => none
      | sig => some ⟨pyStrip a.1, ac.1, md.1, kw, pyStrip sig⟩

/-- Method emission with its visibility filter (src lines 174–182). -/
def emitFuncT (m : FuncM) : List Str :=
  if accessPrivate m.access then []
  else
    (if m.attrs.isEmpty then [] else [s2l "    " ++ m.attrs]) ++
    [s2l "    " ++ m.access ++ m.mods ++ m.keyword ++ ' ' :: m.sig]

/-- Member lines contributed by one directly nested type-body line
(src lines 125–182): the three matchers fire independently, in source order. -/
def typeMemberLines (s : Str) : List Str :=
  (match propMatchT s with | some m => emitProp m | none => []) ++
  (match compMatchT s with | some m => emitComp m | none => []) ++
  (match funcMatchT s with | some m => emitFuncT m | none => [])

/-- `extract_types` (src lines 81–192). -/
def extractTypesAux : Nat → List Str → List Str
  | 0, _ => []
  | _, [] => []
  | f + 1, l :: rest =>
    match typeHeaderParse (pyStrip l) with
    | some h =>
      let sc := scanBody typeMemberLines 1 rest
      joinNL (typeHeaderLines h ++ sc.1 ++ [s2l "\x7d"]) :: extractTypesAux f sc.2
    | none => extractTypesAux f rest

def extract_types (content : Str) : List Str :=
  let ls := splitNL content
  extractTypesAux ls.length ls

/-- The "inside a type" tracking pattern of `extract_global_functions`
(src line 205): class/struct/enum/protocol headers, NOT extensions, and no
brace required. -/
def typeTrackMatch (s : Str) : Bool :=
  let a := parseAttrs (s.dropWhile isPySpace)
  let ac := parseOpt accessList5 a.2
  let fin := parseOpt [s2l "final"] ac.2
  match parseAlt [s2l "class", s2l "struct", s2l "enum", s2l "protocol"] fin.2 with
  | none => false
  | some (_, r) =>
    match takeWhile1 isPySpace r with
    | none => false
    | some (_, r2) => !(r2.takeWhile isWordChar).isEmpty

/-- The global function regex groups (src line 216). -/
structure GFuncM where
  attrs : Str
  access : Str
  statics : Str
  sig : Str
  deriving DecidableEq

def globalFuncMatch (s : Str) : Option GFuncM :=
  let a := parseAttrs (s.dropWhile isPySpace)
  let ac := parseOpt accessList5 a.2
  let st := parseOpt [s2l "static"] ac.2
  match tryPre (s2l "func") st.2 with
  | none => none
  | some r =>
    match takeWhile1 isPySpace r with
    | none => none
    | some (_, r2) =>
      match r2.takeWhile (fun c => !(c = '{')) with
      | [] => none
      | sig => some ⟨pyStrip a.1, ac.1, st.1, pyStrip sig⟩

/-- Global-function emission with its visibility filter (src lines 223–227). -/
def emitGlobalFunc (m : GFuncM) : List Str :=
  if accessPrivate m.access then []
  else
    (if m.attrs.isEmpty then [] else [m.attrs]) ++
    [m.access ++ m.statics ++ s2l "func " ++ m.sig]

/-- The per-line state machine of `extract_global_functions`
(src lines 194–229): the `inside_type` flag with its own brace counter, reset
by type-like headers, and the function pattern tested only outside. -/
def globalsAux : Bool → Int → List Str → List Str
  | _, _, [] => []
  | inside, bc, l :: rest =>
    let s := pyStrip l
    let p1 := if typeTrackMatch s then (true, (0 : Int)) else (inside, bc)
    let p2 :=
      if p1.1 then
        let b := p1.2 + braceDelta s
        if b ≤ 0 then (false, b) else (true, b)
      else p1
    let out :=
      if p2.1 then []
      else if startsWithL (s2l "//") s then []
      else
        match globalFuncMatch s with
        | some m => emitGlobalFunc m
        | none => []
    out ++ globalsAux p2.1 p2.2 rest

def extract_global_functions (content : Str) : List Str :=
  globalsAux false 0 (splitNL content)

/-- The groups of the extension header regex (src line 240). -/
structure ExtHeader where
  attrs : Str
  access : Str
  name : Str
  conf : Str
  deriving DecidableEq

def extHeaderParse (line : Str) : Option ExtHeader :=
  let r0 := line.dropWhile isPySpace
  let a := parseAttrs r0
  let ac := parseOpt accessList4 a.2
  match tryPre (s2l "extension") ac.2 with
  | none => none
  | some r3 =>
    match takeWhile1 isPySpace r3 with
    | none => none
    | some (_, r4) =>
      match takeWhile1 isWordChar r4 with
      | none => none
      | some (nm, r5) =>
        match parseInheritBrace r5 with
        | none => none
        | some cf => some ⟨pyStrip a.1, ac.1, nm, cf⟩

def extHeaderLines (h : ExtHeader) : List Str :=
  (if h.attrs.isEmpty then [] else [h.attrs]) ++
  [h.access ++ s2l "extension " ++ h.name ++ h.conf ++ s2l " \x7b"]

/-- Extension method regex groups (src line 266). -/
structure ExtFuncM where
  attrs : Str
  access : Str
  mods : Str
  sig : Str
  deriving DecidableEq

def extFuncMatch (s : Str) : Option ExtFuncM :=
  let a := parseAttrs (s.dropWhile isPySpace)
  let ac := parseOpt accessList5 a.2
  let md := parseOpt [s2l "static", s2l "class"] ac.2
  match tryPre (s2l "func") md.2 with
  | none => none
  | some r =>
    match takeWhile1 isPySpace r with
    | none => none
    | some (_, r2) =>
      match r2.takeWhile (fun c => !(c = '{')) with
      | [] => none
      | sig => some ⟨pyStrip a.1, ac.1, md.1, pyStrip sig⟩

def emitExtFunc (m : ExtFuncM) : List Str :=
  if accessPrivate m.access then []
  else
    (if m.attrs.isEmpty then [] else [s2l "    " ++ m.attrs]) ++
    [s2l "    " ++ m.access ++ m.mods ++ s2l "func " ++ m.sig]

/-- Extension computed-property regex groups (src line 279). -/
structure ExtVarM where
  attrs : Str
  access : Str
  mods : Str
  name : Str
  ty : Str
  deriving DecidableEq

def extVarMatch (s : Str) : Option ExtVarM :=
  let a := parseAttrs (s.dropWhile isPySpace)
  let ac := parseOpt accessList5 a.2
  let md := parseOpt [s2l "static", s2l "class"] ac.2
  match tryPre (s2l "var") md.2 with
  | none => none
  | some r1 =>
    match takeWhile1 isPySpace r1 with
    | none => none
    | some (_, r2) =>
      match takeWhile1 isWordChar r2 with
      | none => none
      | some (nm, r3) =>
        match r3.dropWhile isPySpace with
        | [] => none
        | c :: r4 =>
          if c = ':' then
            match r4.takeWhile (fun x => !(x = '{')) with
            | [] => none
            | ty =>
              match r4.dropWhile (fun x => !(x = '{')) with
              | [] => none
              | _ :: _ => some ⟨pyStrip a.1, ac.1, md.1, nm, pyStrip ty⟩
          else none

def emitExtVar (m : ExtVarM) : List Str :=
  if accessPrivate m.access then []
  else
    (if m.attrs.isEmpty then [] else [s2l "    " ++ m.attrs]) ++
    [s2l "    " ++ m.access ++ m.mods ++ s2l "var " ++ m.name ++ s2l ": " ++ m.ty
       ++ s2l " \x7b get \x7d"]

/-- Member lines contributed by one directly nested extension line
(src lines 264–290): a method match, then a computed-property match. -/
def extMemberLines (s : Str) : List Str :=
  (match extFuncMatch s with | some m => emitExtFunc m | none => []) ++
  (match extVarMatch s with | some m => emitExtVar m | none => [])

/-- `extract_extensions` (src lines 231–300). -/
def extractExtensionsAux : Nat → List Str → List Str
  | 0, _ => []
  | _, [] => []
  | f + 1, l :: rest =>
    match extHeaderParse (pyStrip l) with
    | some h =>
      let sc := scanBody extMemberLines 1 rest
      joinNL (extHeaderLines h ++ sc.1 ++ [s2l "\x7d"]) :: extractExtensionsAux f sc.2
    | none => extractExtensionsAux f rest

def extract_extensions (content : Str) : List Str :=
  let ls := splitNL content
  extractExtensionsAux ls.length ls

/-! ## `code_map_generator.py`: aggregation and driver -/

/-- The `// Generated: <timestamp>` line.  Per the spec's design notes the
process-wide timestamp is modelled as an injected parameter. -/
def tsLine (ts : Str) : Str := s2l "// Generated: " ++ ts

/-- The `api_components` list built by `generate_code_map`
(src lines 316–348): the timestamp header and each non-empty scanner group
followed by a blank entry — the final extensions group without one. -/
def apiComponents (ts content : Str) : List Str :=
  [tsLine ts, []] ++
  (if (extract_imports content).isEmpty then [] else extract_imports content ++ [[]]) ++
  (if (extract_protocols content).isEmpty then [] else extract_protocols content ++ [[]]) ++
  (if (extract_types content).isEmpty then [] else extract_types content ++ [[]]) ++
  (if (extract_global_functions content).isEmpty then [] else
    extract_global_functions content ++ [[]]) ++
  (if (extract_extensions content).isEmpty then [] else extract_extensions content)

/-- `generate_code_map` (src lines 302–349), with the file's text and the
timestamp as inputs (the file read is performed by the caller's try-block). -/
def generate_code_map (ts content : Str) : Str := joinNL (apiComponents ts content)

def noSurfaceLine : Str := s2l "// No public API surface found"

def errLinePre : Str := s2l "// Error processing file: "

def slashes100 : Str := List.replicate 100 '/'

/-- The output entries `main` appends for one file of a directory run
(src lines 404–419).  A file is a path together with the outcome of reading
and processing it: `Except.error e` models `generate_code_map` raising an
exception rendered as `str(e)`. -/
def sectionLines (ts : Str) (f : Str × Except Str Str) : List Str :=
  [s2l "// === " ++ f.1 ++ s2l " ===", []] ++
  (match f.2 with
   | Except.ok c =>
     let cm := generate_code_map ts c
     if (pyStrip cm).isEmpty then [noSurfaceLine] else [cm]
   | Except.error e => [errLinePre ++ e]) ++
  [[], slashes100, []]

/-- Lexicographic comparison of paths by code point, Python's `<=` on `str`. -/
def lexLe : Str → Str → Bool
  | [], _ => true
  | _ :: _, [] => false
  | a :: as, b :: bs => if a < b then true else if a = b then lexLe as bs else false

def fileLe (a b : Str × Except Str Str) : Prop := lexLe a.1 b.1 = true

instance : DecidableRel fileLe := fun a b => by unfold fileLe; infer_instance

/-- `sorted(swift_files)`: Python's sort is stable, as is insertion sort, so
on key-equal entries both produce the same list. -/
def sortFiles (files : List (Str × Except Str Str)) : List (Str × Except Str Str) :=
  List.insertionSort fileLe files

/-- The directory-run banner (src lines 396–402). -/
def dirHeaderLines (ts dpath : Str) (n : Nat) : List Str :=
  [tsLine ts,
   s2l "// Swift API Surface Map for directory: " ++ dpath,
   s2l "// Found " ++ s2l (toString n) ++ s2l " Swift files",
   s2l "// Generated by Swift Code Map Generator",
   []]

/-- The `output_lines` accumulated for one directory argument
(src lines 388–419): nothing when no matching file was found, else the banner
and, for each file in sorted order, its section. -/
def dirOutput (ts dpath : Str) (files : List (Str × Except Str Str)) : List Str :=
  if files.isEmpty then []
  else
    (sortFiles files).foldl (fun acc f => acc ++ sectionLines ts f)
      (dirHeaderLines ts dpath files.length)

/-! ## `update_network_config.py`

The three `re.sub` patterns of the script share one shape: a literal prefix
ending in `"` , a greedy `[^"]*` value, and a literal suffix starting with `"`.
Because `[^"]*` cannot cross a quote and both delimiters are quotes, the
greedy match is deterministic: the value is exactly the run of non-quote
characters after the prefix, and the suffix must follow at the next quote. -/

/-- One match of a `prefix[^"]*suffix` pattern: the captured value and the
rest after the match. -/
def matchQV (pre post cs : Str) : Option (Str × Str) :=
  match tryPre pre cs with
  | none => none
  | some r =>
    match tryPre post (r.dropWhile (fun c => !(c = '"'))) with
    | none => none
    | some r3 => some (r.takeWhile (fun c => !(c = '"')), r3)

/-- `re.sub(prefix + '[^"]*' + suffix, prefix + val + suffix, cs)`: replace
every non-overlapping match, scanning left to right.  Fuel: a match consumes
at least the non-empty prefix. -/
def subQVAux (pre post val : Str) : Nat → Str → Str
  | 0, cs => cs
  | f + 1, cs =>
    match matchQV pre post cs with
    | some r => pre ++ val ++ post ++ subQVAux pre post val f r.2
    | none =>
      match cs with
      | [] => []
      | c :: t => c :: subQVAux pre post val f t

def subQV (pre post val cs : Str) : Str := subQVAux pre post val cs.length cs

/-- The value captured by the first match of a `prefix[^"]*suffix` pattern
(used to read a host-binding or environment value out of the file text). -/
def findQVAux (pre post : Str) : Nat → Str → Option Str
  | 0, _ => none
  | f + 1, cs =>
    match matchQV pre post cs with
    | some r => some r.1
    | none =>
      match cs with
      | [] => none
      | _ :: t => findQVAux pre post f t

def findQV (pre post cs : Str) : Option Str := findQVAux pre post cs.length cs

/-- Python `str.replace(pat, rep)` for a non-empty literal pattern. -/
def replaceAllAux (pat rep : Str) : Nat → Str → Str
  | 0, cs => cs
  | f + 1, cs =>
    match tryPre pat cs with
    | some r => rep ++ replaceAllAux pat rep f r
    | none =>
      match cs with
      | [] => []
      | c :: t => c :: replaceAllAux pat rep f t

def replaceAll (pat rep cs : Str) : Str := replaceAllAux pat rep cs.length cs

def envPre : Str := s2l "let env = \""

def envPost : Str := s2l "\" // DEFAULT_ENVIRONMENT"

def stagPre : Str := s2l "let stagingConfig = EnvironmentConfig(host: \""

def devPre : Str := s2l "let developmentConfig = EnvironmentConfig(host: \""

def hostPost : Str := s2l "\""

/-- The environment-marker substitution shared by the three modes
(src lines 18–22, 34–38, 40–44). -/
def setEnv (mode c : Str) : Str := subQV envPre envPost mode c

/-- `tunnel_url.replace('https://', '').replace('http://', '')` (src line 27). -/
def stripScheme (u : Str) : Str := replaceAll (s2l "http://") [] (replaceAll (s2l "https://") [] u)

def warnNoIP : Str := s2l "⚠️ Could not detect local IP, using existing configuration"

def donePrint (mode : Str) : Str :=
  s2l "✅ NetworkConfiguration.swift updated for " ++ mode ++ s2l " mode"

/-- The result of `update_network_config`: the text written back and the lines
printed, in order. -/
structure UpdResult where
  content : Str
  printed : List Str
  deriving DecidableEq

/-- `result = run('ipconfig getifaddr en0'); if rc != 0: retry with en1`
(src lines 50–53): the first interface's answer when it succeeded, else the
fallback interface's. -/
def lookupResult (en0 en1 : Option Str) : Option Str :=
  match en0 with
  | some s => some s
  | none => en1

/-- `update_network_config(mode, tunnel_url)` (src lines 9–77) as a pure
function of the configuration file's text.  The `ipconfig getifaddr` calls
are modelled as injected collaborators (per the spec's design notes): `en0`
and `en1` are `some stdout` on a zero exit status and `none` otherwise. -/
def update_network_config (mode : Str) (tunnel_url : Option Str)
    (en0 en1 : Option Str) (content : Str) : UpdResult :=
  if mode = s2l "staging" then
    let c1 := setEnv (s2l "staging") content
    match tunnel_url with
    | some u =>
      if u.isEmpty then ⟨c1, [donePrint mode]⟩
      else
        ⟨subQV stagPre hostPost (stripScheme u) c1,
         [donePrint mode, s2l "   Tunnel host set to: " ++ stripScheme u]⟩
    | none => ⟨c1, [donePrint mode]⟩
  else if mode = s2l "aws" then
    ⟨setEnv (s2l "aws") content, [donePrint mode]⟩
  else if mode = s2l "local" then
    let c1 := setEnv (s2l "local") content
    match lookupResult en0 en1 with
    | some out =>
      let ip := pyStrip out
      ⟨subQV devPre hostPost ip c1,
       [s2l "🔍 Detected current local IP: " ++ ip,
        s2l "✅ Updated local development host to: " ++ ip,
        donePrint mode]⟩
    | none => ⟨c1, [warnNoIP, donePrint mode]⟩
  else ⟨content, [donePrint mode]⟩

/-! ## Concrete inputs used by witnesses and counterexamples -/

/-- A representative `NetworkConfiguration.swift`, holding the three marker
lines the patcher's patterns target. -/
def sampleConfig : Str := s2l
  "import Foundation\nlet env = \"aws\" // DEFAULT_ENVIRONMENT\nlet stagingConfig = EnvironmentConfig(host: \"old.example.com\", port: 443)\nlet developmentConfig = EnvironmentConfig(host: \"192.168.1.10\", port: 3000)\n"

/-- A type body declaring an initializer and a deinitializer in the ordinary
Swift spellings, with single-line bodies so that the brace-depth check cannot
be what excludes them. -/
def c3File : Str := s2l
  "class Counter \x7b\n    init(value: Int) \x7b self.value = value \x7d\n    deinit \x7b print(1) \x7d\n\x7d"

/-- Spec-side rendering of C6's separation discipline: the groups interleaved
with single blank entries. -/
def interBlank : List (List Str) → List Str
  | [] => []
  | [g] => g
  | g :: rest => g ++ ([] : Str) :: interBlank rest

/-- Spec-side: "an empty group contributing nothing at all". -/
def nonEmptyGroups (gs : List (List Str)) : List (List Str) :=
  gs.filter (fun g => !g.isEmpty)

/-- A type body whose computed property's declaration line ends in the
opening brace (the ordinary multi-line getter form). -/
def c8File : Str := s2l
  "struct Card \x7b\n    var title: String \x7b\n        return t\n    \x7d\n\x7d"

/-- An extension whose method opens its body on the declaration line (the
ordinary multi-line form). -/
def c9File : Str := s2l
  "extension String \x7b\n    func shout() -> String \x7b\n        return self\n    \x7d\n\x7d"

/-- A public type with a multi-line public method and a private stored
field. -/
def c4File : Str := s2l
  "public class Greeter \x7b\n    public func greet() -> String \x7b\n        return name\n    \x7d\n    private let name: String\n\x7d"

/-! ## General lemmas about the embedding -/

theorem tryPre_some_eq : ∀ p cs r : Str, tryPre p cs = some r → cs = p ++ r := by
  intro p
  induction p with
  | nil => intro cs r h; cases h; rfl
  | cons a as ih =>
    intro cs r h
    cases cs with
    | nil => cases h
    | cons b bs =>
      by_cases hab : a = b
      · subst hab
        simp only [tryPre, if_pos rfl] at h
        simpa using ih bs r h
      · simp [tryPre, hab] at h

theorem tryPre_append (p t : Str) : tryPre p (p ++ t) = some t := by
  induction p with
  | nil => rfl
  | cons a as ih => simpa [tryPre] using ih

/-- Two lists differing at one position differ. -/
theorem ne_of_getElem?_ne (i : Nat) (x y : Str) (h : x[i]? ≠ y[i]?) : x ≠ y :=
  fun he => h (by rw [he])

/-- `p` is no prefix of `x` when they already disagree at position `i`. -/
theorem startsWithL_false_of_ne (p x : Str) (i : Nat) (a b : Char)
    (hp : p[i]? = some a) (hx : x[i]? = some b) (hab : ¬a = b) :
    startsWithL p x = false := by
  unfold startsWithL
  cases htp : tryPre p x with
  | none => rfl
  | some r =>
    exfalso
    have hcs := tryPre_some_eq p x r htp
    have hip : i < p.length := (List.getElem?_eq_some.mp hp).1
    rw [hcs, List.getElem?_append, if_pos hip, hp] at hx
    exact hab (Option.some.inj hx)

theorem mem_dropWhile_of (p : Char → Bool) (l : Str) (c : Char)
    (hc : c ∈ l) (hp : p c = false) : c ∈ l.dropWhile p := by
  induction l with
  | nil => cases hc
  | cons a t ih =>
    by_cases hpa : p a = true
    · rw [List.dropWhile_cons_of_pos hpa]
      rcases List.mem_cons.mp hc with h | h
      · subst h; rw [hp] at hpa; cases hpa
      · exact ih h
    · rw [List.dropWhile_cons_of_neg hpa]
      exact hc

/-- A string containing a non-space character does not strip to nothing. -/
theorem pyStrip_ne_nil (cs : Str) (c : Char) (hc : c ∈ cs)
    (hsp : isPySpace c = false) : pyStrip cs ≠ [] := by
  have h1 : c ∈ stripLeft cs := mem_dropWhile_of _ _ _ hc hsp
  have h2 : c ∈ (stripLeft cs).reverse := List.mem_reverse.mpr h1
  have h3 : c ∈ (stripLeft cs).reverse.dropWhile isPySpace :=
    mem_dropWhile_of _ _ _ h2 hsp
  exact List.ne_nil_of_mem (List.mem_reverse.mpr h3)

theorem joinNL_cons (x : Str) (xs : List Str) (h : xs ≠ []) :
    joinNL (x :: xs) = x ++ '\n' :: joinNL xs := by
  cases xs with
  | nil => cases h rfl
  | cons y ys => rfl

theorem mem_joinNL_head (c : Char) (x : Str) (xs : List Str) (h : c ∈ x) :
    c ∈ joinNL (x :: xs) := by
  cases xs with
  | nil => exact h
  | cons y ys => exact List.mem_append.mpr (Or.inl h)

/-- The code map always starts with the `// Generated:` banner, hence never
strips to the empty string: `generate_code_map(path).strip()` is never falsy
and the `// No public API surface found` branch is unreachable. -/
theorem generate_code_map_strip_ne (ts content : Str) :
    pyStrip (generate_code_map ts content) ≠ [] := by
  have hsl : '/' ∈ tsLine ts := by
    unfold tsLine
    exact List.mem_append.mpr (Or.inl (by decide))
  have hmem : '/' ∈ generate_code_map ts content := by
    unfold generate_code_map apiComponents
    simp only [List.cons_append, List.nil_append, List.append_assoc]
    exact mem_joinNL_head _ _ _ hsl
  exact pyStrip_ne_nil _ '/' hmem (by decide)

/-! ## Claims about `update_network_config` -/

/-- **C1, counterexample.**  The script recognises the modes `staging`, `aws`
and `local` only; invoked with mode `"tunnel"` and endpoint
`"https://abc.ngrok.io"` it rewrites nothing: the environment marker still
reads `aws` (not `tunnel`) and the tunnel/staging host-binding value is still
`old.example.com` (not `abc.ngrok.io`). -/
theorem c1_counterexample :
    (update_network_config (s2l "tunnel") (some (s2l "https://abc.ngrok.io"))
        none none sampleConfig).content = sampleConfig
    ∧ findQV envPre envPost
        (update_network_config (s2l "tunnel") (some (s2l "https://abc.ngrok.io"))
          none none sampleConfig).content = some (s2l "aws")
    ∧ findQV stagPre hostPost
        (update_network_config (s2l "tunnel") (some (s2l "https://abc.ngrok.io"))
          none none sampleConfig).content = some (s2l "old.example.com") := by
  decide

/-- **C1, amended.**  The mode that performs the tunnel substitution is named
`staging`.  For every configuration text, invoking the patcher with mode
`"staging"` and endpoint `"https://abc.ngrok.io"` writes back exactly the
staging host-binding substitution with the scheme-stripped literal
`abc.ngrok.io` applied after the environment-marker substitution with
`staging`; at the representative configuration this makes the staging
host-binding value `abc.ngrok.io`, the environment marker value `staging`,
and leaves the development host-binding value untouched. -/
theorem c1_theorem (content : Str) :
    (update_network_config (s2l "staging") (some (s2l "https://abc.ngrok.io"))
        none none content).content
      = subQV stagPre hostPost (s2l "abc.ngrok.io") (setEnv (s2l "staging") content)
    ∧ stripScheme (s2l "https://abc.ngrok.io") = s2l "abc.ngrok.io"
    ∧ findQV stagPre hostPost
        (update_network_config (s2l "staging") (some (s2l "https://abc.ngrok.io"))
          none none sampleConfig).content = some (s2l "abc.ngrok.io")
    ∧ findQV envPre envPost
        (update_network_config (s2l "staging") (some (s2l "https://abc.ngrok.io"))
          none none sampleConfig).content = some (s2l "staging")
    ∧ findQV devPre hostPost
        (update_network_config (s2l "staging") (some (s2l "https://abc.ngrok.io"))
          none none sampleConfig).content = some (s2l "192.168.1.10") := by
  refine ⟨?_, by decide, by decide, by decide, by decide⟩
  unfold update_network_config
  rw [if_pos rfl]
  dsimp only
  rw [show stripScheme (s2l "https://abc.ngrok.io") = s2l "abc.ngrok.io" from by decide,
      if_neg (show ¬((s2l "https://abc.ngrok.io").isEmpty = true) from by decide)]

/-- **C7.**  In `local` mode: when both interface lookups fail the written
text is exactly the environment-marker substitution (so, whenever that
substitution does not touch the development host value — the hypothesis,
discharged at a concrete file by the witness — the development host-binding
value is byte-for-byte the prior one) and the warning line is printed; when
either lookup succeeds the stripped discovered address is substituted into
the development host-binding line (witnessed concretely by the final two
conjuncts: on the representative file, via either interface, the development
host value becomes `10.0.0.5`). -/
theorem c7_theorem (content : Str) (en0 en1 : Option Str)
    (hdev : findQV devPre hostPost (setEnv (s2l "local") content)
            = findQV devPre hostPost content) :
    (lookupResult en0 en1 = none →
      (update_network_config (s2l "local") none en0 en1 content).content
          = setEnv (s2l "local") content
      ∧ findQV devPre hostPost
          (update_network_config (s2l "local") none en0 en1 content).content
          = findQV devPre hostPost content
      ∧ warnNoIP ∈ (update_network_config (s2l "local") none en0 en1 content).printed)
    ∧ (∀ out, lookupResult en0 en1 = some out →
      (update_network_config (s2l "local") none en0 en1 content).content
          = subQV devPre hostPost (pyStrip out) (setEnv (s2l "local") content)
      ∧ (s2l "✅ Updated local development host to: " ++ pyStrip out)
          ∈ (update_network_config (s2l "local") none en0 en1 content).printed)
    ∧ findQV devPre hostPost
        (update_network_config (s2l "local") none (some (s2l "10.0.0.5\n")) none
          sampleConfig).content = some (s2l "10.0.0.5")
    ∧ findQV devPre hostPost
        (update_network_config (s2l "local") none none (some (s2l " 10.0.0.5\n"))
          sampleConfig).content = some (s2l "10.0.0.5") := by
  have hs : ¬(s2l "local" = s2l "staging") := by decide
  have ha : ¬(s2l "local" = s2l "aws") := by decide
  refine ⟨?_, ?_, by decide, by decide⟩
  · intro h
    unfold update_network_config
    rw [if_neg hs, if_neg ha, if_pos rfl, h]
    exact ⟨rfl, by rw [hdev], List.Mem.head _⟩
  · intro out h
    unfold update_network_config
    rw [if_neg hs, if_neg ha, if_pos rfl, h]
    exact ⟨rfl, List.Mem.tail _ (List.Mem.head _)⟩

theorem splitNL_ne_nil (cs : Str) : splitNL cs ≠ [] := by
  cases cs with
  | nil => exact fun h => List.noConfusion h
  | cons c rest =>
    unfold splitNL
    cases h : splitNL rest with
    | nil => exact fun h2 => List.noConfusion h2
    | cons x xs =>
      by_cases hc : c = '\n' <;> simp [hc]

theorem splitNL_no_nl (l : Str) (h : '\n' ∉ l) : splitNL l = [l] := by
  induction l with
  | nil => rfl
  | cons c rest ih =>
    have hc : ¬(c = '\n') := fun he => h (he ▸ List.mem_cons_self c rest)
    have hr : '\n' ∉ rest := fun hm => h (List.mem_cons_of_mem c hm)
    unfold splitNL
    rw [ih hr]
    simp [hc]

theorem splitNL_append_nl (a b : Str) (ha : '\n' ∉ a) :
    splitNL (a ++ '\n' :: b) = a :: splitNL b := by
  induction a with
  | nil =>
    show splitNL ('\n' :: b) = [] :: splitNL b
    conv_lhs => rw [splitNL]
    cases h : splitNL b with
    | nil => exact absurd h (splitNL_ne_nil b)
    | cons x xs => simp
  | cons c rest ih =>
    have hc : ¬(c = '\n') := fun he => ha (he ▸ List.mem_cons_self c rest)
    have hr : '\n' ∉ rest := fun hm => ha (List.mem_cons_of_mem c hm)
    show splitNL (c :: (rest ++ '\n' :: b)) = (c :: rest) :: splitNL b
    conv_lhs => rw [splitNL]
    rw [ih hr]
    simp [hc]

/-- `content.split('\n')` recovers the lines `'\n'.join(lines)` was given,
when no line contains a newline itself. -/
theorem splitNL_joinNL (ls : List Str) (h : ∀ l ∈ ls, '\n' ∉ l) (hne : ls ≠ []) :
    splitNL (joinNL ls) = ls := by
  induction ls with
  | nil => cases hne rfl
  | cons l rest ih =>
    cases rest with
    | nil => exact splitNL_no_nl l (h l (List.mem_cons_self _ _))
    | cons x xs =>
      rw [joinNL_cons l (x :: xs) (fun he => List.noConfusion he),
          splitNL_append_nl l _ (h l (List.mem_cons_self _ _)),
          ih (fun m hm => h m (List.mem_cons_of_mem l hm)) (fun he => List.noConfusion he)]

/-! ## Claims about the code-map driver -/

/-- **C2, counterexample.**  A file on which all five scanners return empty
sequences whose per-file section does NOT contain the
`// No public API surface found` marker: the code map (timestamp header) is
emitted instead, because `generate_code_map` always prepends the timestamp
line and so never strips to the empty string. -/
theorem c2_counterexample :
    (extract_imports [] = [] ∧ extract_protocols [] = [] ∧ extract_types [] = []
      ∧ extract_global_functions [] = [] ∧ extract_extensions [] = [])
    ∧ noSurfaceLine ∉ sectionLines (s2l "T") (s2l "A.swift", Except.ok [])
    ∧ generate_code_map (s2l "T") []
        ∈ sectionLines (s2l "T") (s2l "A.swift", Except.ok []) := by
  decide

/-- **C2, amended.**  For every processed file on which all five scanners
return empty sequences, the per-file section contains the code map — which
then consists of just the timestamp header line — and not the
`no public surface found` marker: that marker is unreachable because the code
map always begins with the non-empty timestamp line. -/
theorem c2_theorem (ts path content : Str)
    (h1 : extract_imports content = []) (h2 : extract_protocols content = [])
    (h3 : extract_types content = []) (h4 : extract_global_functions content = [])
    (h5 : extract_extensions content = []) :
    sectionLines ts (path, Except.ok content)
      = [s2l "// === " ++ path ++ s2l " ===", [], tsLine ts ++ ['\n'], [],
         slashes100, []]
    ∧ noSurfaceLine ∉ sectionLines ts (path, Except.ok content) := by
  have hcm : generate_code_map ts content = tsLine ts ++ ['\n'] := by
    unfold generate_code_map apiComponents
    rw [h1, h2, h3, h4, h5]
    simp [joinNL]
  have hif : ¬((pyStrip (generate_code_map ts content)).isEmpty = true) := by
    rw [List.isEmpty_iff]
    exact generate_code_map_strip_ne ts content
  have hsec : sectionLines ts (path, Except.ok content)
      = [s2l "// === " ++ path ++ s2l " ===", [], tsLine ts ++ ['\n'], [],
         slashes100, []] := by
    unfold sectionLines
    dsimp only
    rw [if_neg hif, hcm]
    rfl
  refine ⟨hsec, ?_⟩
  rw [hsec]
  have hne1 : noSurfaceLine ≠ s2l "// === " ++ path ++ s2l " ===" := by
    refine ne_of_getElem?_ne 3 _ _ ?_
    rw [List.getElem?_append,
        if_pos (by rw [List.length_append]
                   have h7 : (s2l "// === ").length = 7 := by decide
                   omega),
        List.getElem?_append, if_pos (by decide)]
    decide
  have hne2 : noSurfaceLine ≠ tsLine ts ++ ['\n'] := by
    refine ne_of_getElem?_ne 3 _ _ ?_
    unfold tsLine
    rw [List.getElem?_append,
        if_pos (by rw [List.length_append]
                   have h14 : (s2l "// Generated: ").length = 14 := by decide
                   omega),
        List.getElem?_append, if_pos (by decide)]
    decide
  simp only [List.mem_cons, List.not_mem_nil, or_false]
  push_neg
  exact ⟨hne1, by decide, hne2, by decide, by decide, by decide⟩

/-- **C2, witness.**  The amended statement at a concrete declaration-free
file. -/
theorem c2_witness :
    noSurfaceLine ∉ sectionLines (s2l "W") (s2l "B.swift", Except.ok (s2l "let x = 1")) :=
  (c2_theorem (s2l "W") (s2l "B.swift") (s2l "let x = 1")
    (by decide) (by decide) (by decide) (by decide) (by decide)).2

/-- **C3.**  The member pattern `(func|init|deinit)\s+([^{]+)` demands
whitespace directly after the keyword and then a non-`{` character, so a line
beginning `init(` or `deinit {` can never match it: on the failing input the
emitted type block is the bare header and closing brace, with no member line
at all.  Only the unidiomatic space-separated spelling `init (...)` matches,
which shows the whitespace requirement is what kills the two spellings the
claim (and the pattern's own `init|deinit` alternatives) intend to cover. -/
theorem c3_theorem :
    extract_types c3File = [s2l "class Counter \x7b\n\x7d"]
    ∧ funcMatchT (s2l "init(value: Int) \x7b self.value = value \x7d") = none
    ∧ funcMatchT (s2l "deinit \x7b print(1) \x7d") = none
    ∧ (funcMatchT (s2l "init (v: Int)")).isSome = true := by
  decide

theorem c6_aux (g1 g2 g3 g4 g5 : List Str) :
    (if g1.isEmpty then [] else g1 ++ [[]]) ++
      ((if g2.isEmpty then [] else g2 ++ [[]]) ++
        ((if g3.isEmpty then [] else g3 ++ [[]]) ++
          ((if g4.isEmpty then [] else g4 ++ [[]]) ++
            (if g5.isEmpty then [] else g5))))
    = interBlank (nonEmptyGroups [g1, g2, g3, g4, g5]) ++
      (if g5.isEmpty && !(g1.isEmpty && g2.isEmpty && g3.isEmpty && g4.isEmpty)
       then [[]] else []) := by
  by_cases e1 : g1.isEmpty <;> by_cases e2 : g2.isEmpty <;> by_cases e3 : g3.isEmpty
    <;> by_cases e4 : g4.isEmpty <;> by_cases e5 : g5.isEmpty
    <;> simp [nonEmptyGroups, interBlank, e1, e2, e3, e4, e5, List.filter]

/-- **C6.**  `generate_code_map` output starts with the timestamp line (and
the blank after it), then the non-empty scanner groups in the fixed order
imports, protocols, types, global functions, extensions, consecutive
non-empty groups separated by exactly one blank entry and an empty group
contributing nothing; a single trailing blank entry remains exactly when the
last non-empty group is not the extensions group (the four earlier groups
append their separator unconditionally). -/
theorem c6_theorem (ts content : Str) :
    apiComponents ts content
      = [tsLine ts, []] ++
        (interBlank (nonEmptyGroups
            [extract_imports content, extract_protocols content,
             extract_types content, extract_global_functions content,
             extract_extensions content]) ++
          (if (extract_extensions content).isEmpty
              && !((extract_imports content).isEmpty
                   && (extract_protocols content).isEmpty
                   && (extract_types content).isEmpty
                   && (extract_global_functions content).isEmpty)
           then [[]] else []))
    ∧ generate_code_map ts content = joinNL (apiComponents ts content) := by
  constructor
  · unfold apiComponents
    simp only [List.append_assoc]
    exact congrArg _ (c6_aux _ _ _ _ _)
  · rfl

/-- **C8, counterexample.**  For a computed property whose declaration line
ends in an opening brace, both the stored-property and the computed-property
patterns DO match the line, yet the emitted type block contains no member
line at all — the member appears zero times, not twice: the brace count is
updated to 2 before the `== 1` depth test, so the line is skipped. -/
theorem c8_counterexample :
    (propMatchT (s2l "var title: String \x7b")).isSome = true
    ∧ (compMatchT (s2l "var title: String \x7b")).isSome = true
    ∧ extract_types c8File = [s2l "struct Card \x7b\n\x7d"] := by
  decide

/-- **C8, amended.**  A non-private computed property is double-emitted only
when its whole declaration line is brace-balanced (e.g. a one-line getter
`var title: String { return t }`): such a line yields exactly two member
lines, the stored-property-style line and the `{ get }` line.  A declaration
line ending in an unmatched opening brace is emitted zero times, because the
scanner updates the brace count before its depth-1 test (the
counterexample). -/
theorem c8_theorem (l : Str) (pm : PropM) (cm : CompM)
    (hp : propMatchT l = some pm) (hc : compMatchT l = some cm)
    (hf : funcMatchT l = none)
    (hap : accessPrivate pm.access = false) (hac : accessPrivate cm.access = false)
    (ha1 : pm.attrs = []) (ha2 : cm.attrs = [])
    (hstrip : pyStrip l = l) (hd : braceDelta l = 0)
    (hne : l ≠ []) (hslash : startsWithL (s2l "//") l = false)
    (hnl : '\n' ∉ l) :
    extract_types (joinNL [s2l "struct S \x7b", l, s2l "\x7d"])
      = [joinNL [s2l "struct S \x7b",
          s2l "    " ++ pm.access ++ pm.statics ++ pm.weakMod ++ pm.kind
            ++ ' ' :: pm.name ++ s2l ": " ++ pm.ty,
          s2l "    " ++ cm.access ++ cm.statics ++ s2l "var " ++ cm.name
            ++ s2l ": " ++ cm.ty ++ s2l " \x7b get \x7d",
          s2l "\x7d"]] := by
  have hsplit : splitNL (joinNL [s2l "struct S \x7b", l, s2l "\x7d"])
      = [s2l "struct S \x7b", l, s2l "\x7d"] := by
    refine splitNL_joinNL _ ?_ (by simp)
    intro m hm
    rcases List.mem_cons.mp hm with h | h
    · subst h; decide
    rcases List.mem_cons.mp h with h | h
    · subst h; exact hnl
    rcases List.mem_cons.mp h with h | h
    · subst h; decide
    cases h
  have hie : l.isEmpty = false := List.isEmpty_eq_false.mpr hne
  unfold extract_types
  rw [hsplit]
  simp only [List.length_cons, List.length_nil]
  rw [show (0 + 1 + 1 + 1 : Nat) = 3 from rfl]
  simp only [extractTypesAux]
  rw [show typeHeaderParse (pyStrip (s2l "struct S \x7b"))
        = some ⟨[], [], [], s2l "struct", s2l "S", [], []⟩ from by decide]
  simp only [scanBody, hstrip, hd, hie, hslash,
    show pyStrip (s2l "\x7d") = s2l "\x7d" from by decide,
    show braceDelta (s2l "\x7d") = -1 from by decide]
  norm_num
  simp only [typeMemberLines, hp, hc, hf, emitProp, emitComp, hap, hac, ha1, ha2]
  simp only [typeHeaderLines, joinNL]
  refine ⟨?_, rfl⟩
  simp only [List.append_assoc, List.cons_append, List.nil_append]
  rfl

/-- **C8, witness.**  The amended statement at a concrete one-line computed
property: the member is emitted twice. -/
theorem c8_witness :
    extract_types (joinNL [s2l "struct S \x7b",
        s2l "var title: String \x7b return t \x7d", s2l "\x7d"])
      = [s2l "struct S \x7b\n    var title: String\n    var title: String \x7b get \x7d\n\x7d"] := by
  have h := c8_theorem (s2l "var title: String \x7b return t \x7d")
      ⟨[], [], [], [], s2l "var", s2l "title", s2l "String"⟩
      ⟨[], [], [], s2l "title", s2l "String"⟩
      (by decide) (by decide) (by decide) (by decide) (by decide) (by decide)
      (by decide) (by decide) (by decide) (by decide) (by decide) (by decide)
  exact h.trans (by decide)

/-- **C9, counterexample.**  The function declared at depth 1 inside the
extension IS emitted by `extract_global_functions` as a free function (the
inside-a-type flag ignores extension headers), but it does NOT appear in the
extension's block from `extract_extensions`: its declaration line ends in an
opening brace, so the brace count is already 2 when the depth-1 test runs.
The claimed "in addition to appearing in the extension's block" fails. -/
theorem c9_counterexample :
    extract_global_functions c9File = [s2l "func shout() -> String"]
    ∧ extract_extensions c9File = [s2l "extension String \x7b\n\x7d"] := by
  decide

/-- **C9, amended.**  The inside-a-type flag is never set by an extension
header, so every non-private function line at depth 1 of an extension body is
emitted by `extract_global_functions` as a free function — unconditionally,
whatever its brace balance; it additionally appears in the extension's block
from `extract_extensions` exactly when its declaration line is brace-balanced
(e.g. a one-line body). -/
theorem c9_theorem (l : Str) (gm : GFuncM) (em : ExtFuncM)
    (hg : globalFuncMatch l = some gm) (he : extFuncMatch l = some em)
    (hgp : accessPrivate gm.access = false) (hep : accessPrivate em.access = false)
    (hga : gm.attrs = []) (hea : em.attrs = [])
    (ht : typeTrackMatch l = false) (hv : extVarMatch l = none)
    (hstrip : pyStrip l = l) (hne : l ≠ [])
    (hslash : startsWithL (s2l "//") l = false) (hnl : '\n' ∉ l) :
    extract_global_functions (joinNL [s2l "extension String \x7b", l, s2l "\x7d"])
      = [gm.access ++ gm.statics ++ s2l "func " ++ gm.sig]
    ∧ (braceDelta l = 0 →
        extract_extensions (joinNL [s2l "extension String \x7b", l, s2l "\x7d"])
          = [joinNL [s2l "extension String \x7b",
              s2l "    " ++ em.access ++ em.mods ++ s2l "func " ++ em.sig,
              s2l "\x7d"]]) := by
  have hsplit : splitNL (joinNL [s2l "extension String \x7b", l, s2l "\x7d"])
      = [s2l "extension String \x7b", l, s2l "\x7d"] := by
    refine splitNL_joinNL _ ?_ (by simp)
    intro m hm
    rcases List.mem_cons.mp hm with h | h
    · subst h; decide
    rcases List.mem_cons.mp h with h | h
    · subst h; exact hnl
    rcases List.mem_cons.mp h with h | h
    · subst h; decide
    cases h
  have hie : l.isEmpty = false := List.isEmpty_eq_false.mpr hne
  constructor
  · unfold extract_global_functions
    rw [hsplit]
    simp only [globalsAux, hstrip, ht, hslash, hg, hie,
      show pyStrip (s2l "extension String \x7b") = s2l "extension String \x7b" from by decide,
      show typeTrackMatch (s2l "extension String \x7b") = false from by decide,
      show startsWithL (s2l "//") (s2l "extension String \x7b") = false from by decide,
      show globalFuncMatch (s2l "extension String \x7b") = none from by decide,
      show pyStrip (s2l "\x7d") = s2l "\x7d" from by decide,
      show typeTrackMatch (s2l "\x7d") = false from by decide,
      show startsWithL (s2l "//") (s2l "\x7d") = false from by decide,
      show globalFuncMatch (s2l "\x7d") = none from by decide]
    simp [emitGlobalFunc, hgp, hga]
  · intro hd
    unfold extract_extensions
    rw [hsplit]
    simp only [List.length_cons, List.length_nil]
    rw [show (0 + 1 + 1 + 1 : Nat) = 3 from rfl]
    simp only [extractExtensionsAux]
    rw [show extHeaderParse (pyStrip (s2l "extension String \x7b"))
          = some ⟨[], [], s2l "String", []⟩ from by decide]
    simp only [scanBody, hstrip, hd, hie, hslash,
      show pyStrip (s2l "\x7d") = s2l "\x7d" from by decide,
      show braceDelta (s2l "\x7d") = -1 from by decide]
    norm_num
    simp only [extMemberLines, he, hv, emitExtFunc, hep, hea]
    simp only [extHeaderLines, joinNL]
    refine ⟨?_, rfl⟩
    simp only [List.append_assoc, List.cons_append, List.nil_append]
    try rfl

/-- **C9, witness.**  The amended statement at a concrete one-line extension
method. -/
theorem c9_witness :
    extract_global_functions
        (joinNL [s2l "extension String \x7b",
          s2l "func quiet() -> String \x7b return self \x7d", s2l "\x7d"])
      = [s2l "func quiet() -> String"]
    ∧ extract_extensions
        (joinNL [s2l "extension String \x7b",
          s2l "func quiet() -> String \x7b return self \x7d", s2l "\x7d"])
      = [s2l "extension String \x7b\n    func quiet() -> String\n\x7d"] := by
  have h := c9_theorem (s2l "func quiet() -> String \x7b return self \x7d")
      ⟨[], [], [], s2l "quiet() -> String"⟩ ⟨[], [], [], s2l "quiet() -> String"⟩
      (by decide) (by decide) (by decide) (by decide) (by decide) (by decide)
      (by decide) (by decide) (by decide) (by decide) (by decide) (by decide)
  exact ⟨h.1, (h.2 (by decide)).trans (by decide)⟩

/-- Small parsing facts used to show the protocol scanner can never emit a
`private`/`fileprivate`-qualified member (its member patterns have no access
group, so such lines simply fail to match). -/
theorem parseAttrsAux_none (f : Nat) (cs : Str) (h : parseOneAttr cs = none) :
    parseAttrsAux f cs = ([], cs) := by
  cases f <;> simp [parseAttrsAux, h]

theorem protoMemberLines_private (s : Str) :
    protoMemberLines (s2l "private " ++ s) = [] := by
  have e : s2l "private " ++ s = 'p' :: (s2l "rivate " ++ s) := by
    rw [show s2l "private " = 'p' :: s2l "rivate " from by decide]; rfl
  rw [e]
  have hdw : List.dropWhile isPySpace ('p' :: (s2l "rivate " ++ s))
      = 'p' :: (s2l "rivate " ++ s) := List.dropWhile_cons_of_neg (by decide)
  have hattr : parseAttrs ('p' :: (s2l "rivate " ++ s)) = ([], 'p' :: (s2l "rivate " ++ s)) :=
    parseAttrsAux_none _ _ (by simp [parseOneAttr])
  unfold protoMemberLines protoFuncMatch protoVarMatch
  rw [hdw]
  simp only [hattr, parseOpt, parseFirst, parseKwSp, parseAlt]
  rw [show s2l "static" = 's' :: s2l "tatic" from by decide,
      show s2l "class" = 'c' :: s2l "lass" from by decide,
      show s2l "func" = 'f' :: s2l "unc" from by decide,
      show s2l "var" = 'v' :: s2l "ar" from by decide,
      show s2l "let" = 'l' :: s2l "et" from by decide]
  simp [tryPre]

theorem protoMemberLines_fileprivate (s : Str) :
    protoMemberLines (s2l "fileprivate " ++ s) = [] := by
  have e : s2l "fileprivate " ++ s = 'f' :: 'i' :: (s2l "leprivate " ++ s) := by
    rw [show s2l "fileprivate " = 'f' :: 'i' :: s2l "leprivate " from by decide]; rfl
  rw [e]
  have hdw : List.dropWhile isPySpace ('f' :: 'i' :: (s2l "leprivate " ++ s))
      = 'f' :: 'i' :: (s2l "leprivate " ++ s) := List.dropWhile_cons_of_neg (by decide)
  have hattr : parseAttrs ('f' :: 'i' :: (s2l "leprivate " ++ s))
      = ([], 'f' :: 'i' :: (s2l "leprivate " ++ s)) :=
    parseAttrsAux_none _ _ (by simp [parseOneAttr])
  unfold protoMemberLines protoFuncMatch protoVarMatch
  rw [hdw]
  simp only [hattr, parseOpt, parseFirst, parseKwSp, parseAlt]
  rw [show s2l "static" = 's' :: s2l "tatic" from by decide,
      show s2l "class" = 'c' :: s2l "lass" from by decide,
      show s2l "func" = 'f' :: 'u' :: s2l "nc" from by decide,
      show s2l "var" = 'v' :: s2l "ar" from by decide,
      show s2l "let" = 'l' :: s2l "et" from by decide]
  simp [tryPre]

/-- **C4, counterexample.**  The public method's declaration line matches the
method pattern, yet the emitted type block is just the header and the closing
brace: the method line ends in an opening brace, the brace count is updated
to 2 before the depth-1 test, and the signature is dropped — the claim's
"contains the method signature line" fails for the ordinary multi-line
method form. -/
theorem c4_counterexample :
    (funcMatchT (s2l "public func greet() -> String \x7b")).isSome = true
    ∧ extract_types c4File = [s2l "public class Greeter \x7b\n\x7d"] := by
  decide

/-- **C4, amended.**  For a top-level public type whose public method's
declaration line is brace-balanced (e.g. a one-line body) and whose private
stored field sits at depth 1, the type block contains the header line and the
method signature line and no line derived from the private field; and in
every scanner the visibility filter excludes a member whose qualifier starts
with `private`/`fileprivate` (in the protocol scanner, because such a line
cannot match at all) while a member with no explicit qualifier is emitted. -/
theorem c4_theorem (hl ml fl : Str) (th : TypeHeader) (fm : FuncM) (pm : PropM)
    (hh : typeHeaderParse (pyStrip hl) = some th) (hta : th.attrs = [])
    (hhnl : '\n' ∉ hl)
    (hm : funcMatchT ml = some fm) (hmp : accessPrivate fm.access = false)
    (hma : fm.attrs = [])
    (hm2 : propMatchT ml = none) (hm3 : compMatchT ml = none)
    (hmd : braceDelta ml = 0) (hmne : ml ≠ [])
    (hms : startsWithL (s2l "//") ml = false)
    (hmstrip : pyStrip ml = ml) (hmnl : '\n' ∉ ml)
    (hf : propMatchT fl = some pm) (hfp : accessPrivate pm.access = true)
    (hf2 : compMatchT fl = none) (hf3 : funcMatchT fl = none)
    (hfd : braceDelta fl = 0) (hfne : fl ≠ [])
    (hfs : startsWithL (s2l "//") fl = false)
    (hfstrip : pyStrip fl = fl) (hfnl : '\n' ∉ fl) :
    extract_types (joinNL [hl, ml, fl, s2l "\x7d"])
      = [joinNL [th.access ++ th.finalMod ++ th.keyword ++ ' ' :: th.name
                   ++ th.generics ++ th.inherit ++ s2l " \x7b",
                 s2l "    " ++ fm.access ++ fm.mods ++ fm.keyword ++ ' ' :: fm.sig,
                 s2l "\x7d"]]
    ∧ (∀ r : PropM, accessPrivate r.access = true → emitProp r = [])
    ∧ (∀ r : PropM, r.access = [] → emitProp r ≠ [])
    ∧ (∀ r : CompM, accessPrivate r.access = true → emitComp r = [])
    ∧ (∀ r : CompM, r.access = [] → emitComp r ≠ [])
    ∧ (∀ r : FuncM, accessPrivate r.access = true → emitFuncT r = [])
    ∧ (∀ r : FuncM, r.access = [] → emitFuncT r ≠ [])
    ∧ (∀ r : GFuncM, accessPrivate r.access = true → emitGlobalFunc r = [])
    ∧ (∀ r : GFuncM, r.access = [] → emitGlobalFunc r ≠ [])
    ∧ (∀ r : ExtFuncM, accessPrivate r.access = true → emitExtFunc r = [])
    ∧ (∀ r : ExtFuncM, r.access = [] → emitExtFunc r ≠ [])
    ∧ (∀ r : ExtVarM, accessPrivate r.access = true → emitExtVar r = [])
    ∧ (∀ r : ExtVarM, r.access = [] → emitExtVar r ≠ [])
    ∧ (∀ s, protoMemberLines (s2l "private " ++ s) = [])
    ∧ (∀ s, protoMemberLines (s2l "fileprivate " ++ s) = []) := by
  have hsplit : splitNL (joinNL [hl, ml, fl, s2l "\x7d"]) = [hl, ml, fl, s2l "\x7d"] := by
    refine splitNL_joinNL _ ?_ (by simp)
    intro m hm'
    rcases List.mem_cons.mp hm' with h | h
    · subst h; exact hhnl
    rcases List.mem_cons.mp h with h | h
    · subst h; exact hmnl
    rcases List.mem_cons.mp h with h | h
    · subst h; exact hfnl
    rcases List.mem_cons.mp h with h | h
    · subst h; decide
    cases h
  have hmie : ml.isEmpty = false := List.isEmpty_eq_false.mpr hmne
  have hfie : fl.isEmpty = false := List.isEmpty_eq_false.mpr hfne
  refine ⟨?_, ?_, ?_, ?_, ?_, ?_, ?_, ?_, ?_, ?_, ?_, ?_, ?_,
    protoMemberLines_private, protoMemberLines_fileprivate⟩
  · unfold extract_types
    rw [hsplit]
    simp only [List.length_cons, List.length_nil]
    rw [show (0 + 1 + 1 + 1 + 1 : Nat) = 4 from rfl]
    simp only [extractTypesAux]
    rw [hh]
    simp only [scanBody, hmstrip, hmd, hmie, hms, hfstrip, hfd, hfie, hfs,
      show pyStrip (s2l "\x7d") = s2l "\x7d" from by decide,
      show braceDelta (s2l "\x7d") = -1 from by decide]
    norm_num
    simp only [typeMemberLines, hm, hm2, hm3, hf, hf2, hf3,
      emitProp, emitComp, emitFuncT, hmp, hma, hfp]
    simp only [typeHeaderLines, hta, joinNL]
    refine ⟨?_, rfl⟩
    simp only [List.append_assoc, List.cons_append, List.nil_append]
    try rfl
  · intro r h; simp [emitProp, h]
  · intro r h
    have h2 : accessPrivate r.access = false := by rw [h]; decide
    simp [emitProp, h2]
  · intro r h; simp [emitComp, h]
  · intro r h
    have h2 : accessPrivate r.access = false := by rw [h]; decide
    simp [emitComp, h2]
  · intro r h; simp [emitFuncT, h]
  · intro r h
    have h2 : accessPrivate r.access = false := by rw [h]; decide
    simp [emitFuncT, h2]
  · intro r h; simp [emitGlobalFunc, h]
  · intro r h
    have h2 : accessPrivate r.access = false := by rw [h]; decide
    simp [emitGlobalFunc, h2]
  · intro r h; simp [emitExtFunc, h]
  · intro r h
    have h2 : accessPrivate r.access = false := by rw [h]; decide
    simp [emitExtFunc, h2]
  · intro r h; simp [emitExtVar, h]
  · intro r h
    have h2 : accessPrivate r.access = false := by rw [h]; decide
    simp [emitExtVar, h2]

/-- **C4, witness.**  The amended statement at concrete lines: a one-line
public method is kept, the private field is dropped. -/
theorem c4_witness :
    extract_types (joinNL [s2l "public class Greeter2 \x7b",
        s2l "public func greet() -> String \x7b return name \x7d",
        s2l "private let name: String", s2l "\x7d"])
      = [s2l "public class Greeter2 \x7b\n    public func greet() -> String\n\x7d"] := by
  have h := c4_theorem (s2l "public class Greeter2 \x7b")
      (s2l "public func greet() -> String \x7b return name \x7d")
      (s2l "private let name: String")
      ⟨[], s2l "public ", [], s2l "class", s2l "Greeter2", [], []⟩
      ⟨[], s2l "public ", [], s2l "func", s2l "greet() -> String"⟩
      ⟨[], s2l "private ", [], [], s2l "let", s2l "name", s2l "String"⟩
      (by decide) (by decide) (by decide) (by decide) (by decide) (by decide)
      (by decide) (by decide) (by decide) (by decide) (by decide) (by decide)
      (by decide) (by decide) (by decide) (by decide) (by decide) (by decide)
      (by decide) (by decide) (by decide) (by decide)
  exact h.1.trans (by decide)

/-- **C10.**  The visibility filter never applies to the declaration itself:
a type, protocol or extension whose own header carries a `private` or
`fileprivate` qualifier (`accessPrivate` of the captured header access group
is true) is still emitted in full — its header line, qualifier included, plus
its non-private members. -/
theorem c10_theorem
    (hl ml : Str) (th : TypeHeader) (pm : PropM)
    (hh : typeHeaderParse (pyStrip hl) = some th) (hta : th.attrs = [])
    (_hacc : accessPrivate th.access = true) (hhnl : '\n' ∉ hl)
    (hm : propMatchT ml = some pm) (hmp : accessPrivate pm.access = false)
    (hma : pm.attrs = [])
    (hm2 : compMatchT ml = none) (hm3 : funcMatchT ml = none)
    (hmd : braceDelta ml = 0) (hmne : ml ≠ [])
    (hms : startsWithL (s2l "//") ml = false)
    (hmstrip : pyStrip ml = ml) (hmnl : '\n' ∉ ml)
    (phl pl : Str) (ph : ProtoHeader) (pf : ProtoFuncM)
    (hph : protoHeaderParse (pyStrip phl) = some ph) (hpa : ph.attrs = [])
    (_hpacc : accessPrivate ph.access = true) (hphnl : '\n' ∉ phl)
    (hpf : protoFuncMatch pl = some pf) (hpfa : pf.attrs = [])
    (hpv : protoVarMatch pl = none)
    (hpd : braceDelta pl = 0) (hpne : pl ≠ [])
    (hps : startsWithL (s2l "//") pl = false)
    (hpstrip : pyStrip pl = pl) (hpnl : '\n' ∉ pl)
    (ehl el : Str) (eh : ExtHeader) (ef : ExtFuncM)
    (heh : extHeaderParse (pyStrip ehl) = some eh) (hea : eh.attrs = [])
    (_heacc : accessPrivate eh.access = true) (hehnl : '\n' ∉ ehl)
    (hef : extFuncMatch el = some ef) (hefp : accessPrivate ef.access = false)
    (hefa : ef.attrs = [])
    (hev : extVarMatch el = none)
    (hed : braceDelta el = 0) (hene : el ≠ [])
    (hes : startsWithL (s2l "//") el = false)
    (hestrip : pyStrip el = el) (henl : '\n' ∉ el) :
    extract_types (joinNL [hl, ml, s2l "\x7d"])
      = [joinNL [th.access ++ th.finalMod ++ th.keyword ++ ' ' :: th.name
                   ++ th.generics ++ th.inherit ++ s2l " \x7b",
                 s2l "    " ++ pm.access ++ pm.statics ++ pm.weakMod ++ pm.kind
                   ++ ' ' :: pm.name ++ s2l ": " ++ pm.ty,
                 s2l "\x7d"]]
    ∧ extract_protocols (joinNL [phl, pl, s2l "\x7d"])
      = [joinNL [ph.access ++ s2l "protocol " ++ ph.name ++ ph.inherit ++ s2l " \x7b",
                 s2l "    " ++ pf.statics ++ s2l "func " ++ pf.sig,
                 s2l "\x7d"]]
    ∧ extract_extensions (joinNL [ehl, el, s2l "\x7d"])
      = [joinNL [eh.access ++ s2l "extension " ++ eh.name ++ eh.conf ++ s2l " \x7b",
                 s2l "    " ++ ef.access ++ ef.mods ++ s2l "func " ++ ef.sig,
                 s2l "\x7d"]] := by
  have hmie : ml.isEmpty = false := List.isEmpty_eq_false.mpr hmne
  have hpie : pl.isEmpty = false := List.isEmpty_eq_false.mpr hpne
  have heie : el.isEmpty = false := List.isEmpty_eq_false.mpr hene
  refine ⟨?_, ?_, ?_⟩
  · have hsplit : splitNL (joinNL [hl, ml, s2l "\x7d"]) = [hl, ml, s2l "\x7d"] := by
      refine splitNL_joinNL _ ?_ (by simp)
      intro m hm'
      rcases List.mem_cons.mp hm' with h | h
      · subst h; exact hhnl
      rcases List.mem_cons.mp h with h | h
      · subst h; exact hmnl
      rcases List.mem_cons.mp h with h | h
      · subst h; decide
      cases h
    unfold extract_types
    rw [hsplit]
    simp only [List.length_cons, List.length_nil]
    rw [show (0 + 1 + 1 + 1 : Nat) = 3 from rfl]
    simp only [extractTypesAux]
    rw [hh]
    simp only [scanBody, hmstrip, hmd, hmie, hms,
      show pyStrip (s2l "\x7d") = s2l "\x7d" from by decide,
      show braceDelta (s2l "\x7d") = -1 from by decide]
    norm_num
    simp only [typeMemberLines, hm, hm2, hm3, emitProp, hmp, hma]
    simp only [typeHeaderLines, hta, joinNL]
    refine ⟨?_, rfl⟩
    simp only [List.append_assoc, List.cons_append, List.nil_append]
    try rfl
  · have hsplit : splitNL (joinNL [phl, pl, s2l "\x7d"]) = [phl, pl, s2l "\x7d"] := by
      refine splitNL_joinNL _ ?_ (by simp)
      intro m hm'
      rcases List.mem_cons.mp hm' with h | h
      · subst h; exact hphnl
      rcases List.mem_cons.mp h with h | h
      · subst h; exact hpnl
      rcases List.mem_cons.mp h with h | h
      · subst h; decide
      cases h
    unfold extract_protocols
    rw [hsplit]
    simp only [List.length_cons, List.length_nil]
    rw [show (0 + 1 + 1 + 1 : Nat) = 3 from rfl]
    simp only [extractProtocolsAux]
    rw [hph]
    simp only [scanBody, hpstrip, hpd, hpie, hps,
      show pyStrip (s2l "\x7d") = s2l "\x7d" from by decide,
      show braceDelta (s2l "\x7d") = -1 from by decide]
    norm_num
    simp only [protoMemberLines, hpf, hpv, hpfa]
    simp only [protoHeaderLines, hpa, joinNL]
    refine ⟨?_, rfl⟩
    simp only [List.append_assoc, List.cons_append, List.nil_append]
    try rfl
  · have hsplit : splitNL (joinNL [ehl, el, s2l "\x7d"]) = [ehl, el, s2l "\x7d"] := by
      refine splitNL_joinNL _ ?_ (by simp)
      intro m hm'
      rcases List.mem_cons.mp hm' with h | h
      · subst h; exact hehnl
      rcases List.mem_cons.mp h with h | h
      · subst h; exact henl
      rcases List.mem_cons.mp h with h | h
      · subst h; decide
      cases h
    unfold extract_extensions
    rw [hsplit]
    simp only [List.length_cons, List.length_nil]
    rw [show (0 + 1 + 1 + 1 : Nat) = 3 from rfl]
    simp only [extractExtensionsAux]
    rw [heh]
    simp only [scanBody, hestrip, hed, heie, hes,
      show pyStrip (s2l "\x7d") = s2l "\x7d" from by decide,
      show braceDelta (s2l "\x7d") = -1 from by decide]
    norm_num
    simp only [extMemberLines, hef, hev, emitExtFunc, hefp, hefa]
    simp only [extHeaderLines, hea, joinNL]
    refine ⟨?_, rfl⟩
    simp only [List.append_assoc, List.cons_append, List.nil_append]
    try rfl

/-- **C10, witness.**  Private-headed type, protocol and extension at
concrete inputs, each emitted with its header and its member. -/
theorem c10_witness :
    extract_types (joinNL [s2l "private class Hidden \x7b", s2l "let y: Double", s2l "\x7d"])
      = [s2l "private class Hidden \x7b\n    let y: Double\n\x7d"]
    ∧ extract_protocols (joinNL [s2l "fileprivate protocol Sec \x7b",
        s2l "func f() -> Int", s2l "\x7d"])
      = [s2l "fileprivate protocol Sec \x7b\n    func f() -> Int\n\x7d"]
    ∧ extract_extensions (joinNL [s2l "private extension Hidden \x7b",
        s2l "func visible() -> Int \x7b return 1 \x7d", s2l "\x7d"])
      = [s2l "private extension Hidden \x7b\n    func visible() -> Int\n\x7d"] := by
  have h := c10_theorem
      (s2l "private class Hidden \x7b") (s2l "let y: Double")
      ⟨[], s2l "private ", [], s2l "class", s2l "Hidden", [], []⟩
      ⟨[], [], [], [], s2l "let", s2l "y", s2l "Double"⟩
      (by decide) (by decide) (by decide) (by decide) (by decide) (by decide)
      (by decide) (by decide) (by decide) (by decide) (by decide) (by decide)
      (by decide) (by decide)
      (s2l "fileprivate protocol Sec \x7b") (s2l "func f() -> Int")
      ⟨[], s2l "fileprivate ", s2l "Sec", []⟩ ⟨[], [], s2l "f() -> Int"⟩
      (by decide) (by decide) (by decide) (by decide) (by decide) (by decide)
      (by decide) (by decide) (by decide) (by decide) (by decide) (by decide)
      (s2l "private extension Hidden \x7b") (s2l "func visible() -> Int \x7b return 1 \x7d")
      ⟨[], s2l "private ", s2l "Hidden", []⟩ ⟨[], [], [], s2l "visible() -> Int"⟩
      (by decide) (by decide) (by decide) (by decide) (by decide) (by decide)
      (by decide) (by decide) (by decide) (by decide) (by decide) (by decide)
      (by decide)
  exact ⟨h.1.trans (by decide), h.2.1.trans (by decide), h.2.2.trans (by decide)⟩

theorem lexLe_total (x : Str) : ∀ y : Str, lexLe x y = true ∨ lexLe y x = true := by
  induction x with
  | nil => intro y; left; rfl
  | cons a as ih =>
    intro y
    cases y with
    | nil => right; rfl
    | cons b bs =>
      rcases lt_trichotomy a b with h | h | h
      · left; simp [lexLe, h]
      · subst h
        rcases ih bs with h2 | h2
        · left; simp [lexLe, lt_irrefl, h2]
        · right; simp [lexLe, lt_irrefl, h2]
      · right; simp [lexLe, h]

theorem lexLe_trans (x : Str) : ∀ y z : Str,
    lexLe x y = true → lexLe y z = true → lexLe x z = true := by
  induction x with
  | nil => intro y z _ _; rfl
  | cons a as ih =>
    intro y z hxy hyz
    cases y with
    | nil => simp [lexLe] at hxy
    | cons b bs =>
      cases z with
      | nil => simp [lexLe] at hyz
      | cons c cs2 =>
        rcases lt_trichotomy a b with h1 | h1 | h1
        · rcases lt_trichotomy b c with h2 | h2 | h2
          · simp [lexLe, lt_trans h1 h2]
          · subst h2; simp [lexLe, h1]
          · simp only [lexLe] at hyz
            rw [if_neg (asymm h2), if_neg (ne_of_gt h2)] at hyz
            cases hyz
        · subst h1
          rcases lt_trichotomy a c with h3 | h3 | h3
          · simp [lexLe, h3]
          · subst h3
            simp only [lexLe, lt_irrefl, if_neg (lt_irrefl a), if_pos rfl] at hxy hyz ⊢
            exact ih bs cs2 hxy hyz
          · simp only [lexLe] at hyz
            rw [if_neg (asymm h3), if_neg (ne_of_gt h3)] at hyz
            cases hyz
        · simp only [lexLe] at hxy
          rw [if_neg (asymm h1), if_neg (ne_of_gt h1)] at hxy
          cases hxy

instance : IsTotal (Str × Except Str Str) fileLe :=
  ⟨fun a b => lexLe_total a.1 b.1⟩

instance : IsTrans (Str × Except Str Str) fileLe :=
  ⟨fun a b c => lexLe_trans a.1 b.1 c.1⟩

/-- The `for file_path in sorted(...)` accumulation is the banner followed by
the concatenation of the per-file sections. -/
theorem foldl_sections (g : (Str × Except Str Str) → List Str) :
    ∀ (l : List (Str × Except Str Str)) (init : List Str),
      l.foldl (fun acc f => acc ++ g f) init = init ++ (l.map g).flatten := by
  intro l
  induction l with
  | nil => intro init; simp
  | cons x xs ih =>
    intro init
    simp only [List.foldl_cons, List.map_cons, List.flatten_cons, ih, List.append_assoc]

/-- Character 3 of any code map is the `G` of `// Generated:`. -/
theorem generate_code_map_getElem3 (ts content : Str) :
    (generate_code_map ts content)[3]? = some 'G' := by
  have hshape : generate_code_map ts content
      = tsLine ts ++ '\n' :: joinNL ([] :: ((apiComponents ts content).drop 2)) := by
    unfold generate_code_map
    conv_rhs => rw [← joinNL_cons _ _ (by simp)]
    congr 1
  rw [hshape, List.getElem?_append,
      if_pos (by
        unfold tsLine
        rw [List.length_append]
        have h14 : (s2l "// Generated: ").length = 14 := by decide
        omega)]
  unfold tsLine
  rw [List.getElem?_append, if_pos (by decide)]
  decide

/-- A line of the form `// Error processing file: <e>` carries the marker. -/
theorem errLine_self (e : Str) : startsWithL errLinePre (errLinePre ++ e) = true := by
  unfold startsWithL
  rw [tryPre_append]
  rfl

/-- No entry of a successfully processed file's section carries the error
marker: the banner disagrees at position 3 (`=` against `E`), the code map at
position 3 (`G` against `E`), and the fixed entries are checked directly. -/
theorem sectionLines_ok_no_err (ts path content : Str) :
    ∀ l ∈ sectionLines ts (path, Except.ok content), startsWithL errLinePre l = false := by
  intro l hl
  have hsec : sectionLines ts (path, Except.ok content)
      = [s2l "// === " ++ path ++ s2l " ===", [], generate_code_map ts content,
         [], slashes100, []] := by
    unfold sectionLines
    dsimp only
    rw [if_neg (by rw [List.isEmpty_iff]; exact generate_code_map_strip_ne ts content)]
    rfl
  rw [hsec] at hl
  have hhdr : startsWithL errLinePre (s2l "// === " ++ path ++ s2l " ===") = false := by
    refine startsWithL_false_of_ne _ _ 3 'E' '=' (by decide) ?_ (by decide)
    rw [List.getElem?_append,
        if_pos (by rw [List.length_append]
                   have h7 : (s2l "// === ").length = 7 := by decide
                   omega),
        List.getElem?_append, if_pos (by decide)]
    decide
  have hcm : startsWithL errLinePre (generate_code_map ts content) = false :=
    startsWithL_false_of_ne _ _ 3 'E' 'G' (by decide)
      (generate_code_map_getElem3 ts content) (by decide)
  rcases List.mem_cons.mp hl with h | h
  · subst h; exact hhdr
  rcases List.mem_cons.mp h with h | h
  · subst h; decide
  rcases List.mem_cons.mp h with h | h
  · subst h; exact hcm
  rcases List.mem_cons.mp h with h | h
  · subst h; decide
  rcases List.mem_cons.mp h with h | h
  · subst h; decide
  rcases List.mem_cons.mp h with h | h
  · subst h; decide
  cases h

/-- **C5.**  A directory run over a non-empty file list: the output is the
directory banner followed by one section per file, the sections ordered by
path (sorted, and a permutation of the input — so exactly N of them), and a
file's section contains an error-marker entry exactly when reading or
processing that file raised an error; each section is produced independently
of every other file's outcome (the flattened-map shape), so one file's error
never prevents the rest from being processed. -/
theorem c5_theorem (ts dpath : Str) (files : List (Str × Except Str Str))
    (h1 : files ≠ []) :
    dirOutput ts dpath files
      = dirHeaderLines ts dpath files.length
        ++ ((sortFiles files).map (sectionLines ts)).flatten
    ∧ (sortFiles files).length = files.length
    ∧ (sortFiles files).Perm files
    ∧ List.Sorted fileLe (sortFiles files)
    ∧ (∀ f ∈ files,
        ((∃ l ∈ sectionLines ts f, startsWithL errLinePre l = true)
          ↔ ∃ e, f.2 = Except.error e)) := by
  refine ⟨?_, ?_, ?_, ?_, ?_⟩
  · unfold dirOutput
    rw [if_neg (by rw [List.isEmpty_iff]; exact h1)]
    exact foldl_sections _ _ _
  · exact List.length_insertionSort _ _
  · exact List.perm_insertionSort _ _
  · exact List.sorted_insertionSort _ _
  · rintro ⟨path, res⟩ _
    cases res with
    | ok c =>
      constructor
      · rintro ⟨l, hl, herr⟩
        rw [sectionLines_ok_no_err ts path c l hl] at herr
        cases herr
      · rintro ⟨e, he⟩
        cases he
    | error e =>
      constructor
      · intro _; exact ⟨e, rfl⟩
      · intro _
        refine ⟨errLinePre ++ e, ?_, errLine_self e⟩
        unfold sectionLines
        simp

/-- **C5, witness.**  A directory holding one erroring and one readable file:
two sections, sorted paths, and the marker exactly in the erroring file's
section. -/
theorem c5_witness :
    (sortFiles [(s2l "b.swift", Except.error (s2l "boom")),
                (s2l "a.swift", Except.ok [])]).length = 2
    ∧ ((∃ l ∈ sectionLines (s2l "T") (s2l "b.swift", Except.error (s2l "boom")),
          startsWithL errLinePre l = true)
        ↔ ∃ e, (Except.error (s2l "boom") : Except Str Str) = Except.error e)
    ∧ ¬(∃ l ∈ sectionLines (s2l "T") (s2l "a.swift", Except.ok ([] : Str)),
          startsWithL errLinePre l = true) := by
  have h := c5_theorem (s2l "T") (s2l "d")
      [(s2l "b.swift", Except.error (s2l "boom")), (s2l "a.swift", Except.ok [])]
      (by simp)
  refine ⟨h.2.1, ?_, ?_⟩
  · exact h.2.2.2.2 (s2l "b.swift", Except.error (s2l "boom")) (by simp)
  · intro hex
    have h2 := (h.2.2.2.2 (s2l "a.swift", Except.ok []) (by simp)).mp hex
    rcases h2 with ⟨e, he⟩
    cases he

/-- **C7, witness.**  The failure branch at the representative file: both
lookups fail, the development host value is unchanged, the warning is
printed. -/
theorem c7_witness :
    (update_network_config (s2l "local") none none none sampleConfig).content
        = setEnv (s2l "local") sampleConfig
    ∧ findQV devPre hostPost
        (update_network_config (s2l "local") none none none sampleConfig).content
        = findQV devPre hostPost sampleConfig
    ∧ warnNoIP ∈ (update_network_config (s2l "local") none none none sampleConfig).printed := by
  have h := (c7_theorem sampleConfig none none (by decide)).1 rfl
  exact h

